import Mathlib

/-!
# Verification of the domino multi-facet property search engine

Shallow embedding of `src/property_match.py` and `src/property_searcher.py`:
the weighted Reciprocal Rank Fusion merge (`PropertySearcher._weighted_rrf_merge`),
the post-search filter (`PropertySearcher.apply_filters` in both files), and the
orchestrating `PropertySearcher.search_similar_properties`.

Python floats are modelled as exact rationals (`ℚ`); Python dicts with string
keys as association lists in insertion order (a Python dict iterates in
insertion order, and key update leaves the key's position unchanged);
Python's stable `sorted(..., reverse=True)` as a stable insertion sort that
keeps earlier elements first among equal keys; raised-and-caught exceptions
as `Except` values.
-/

namespace Domino

/-- Entity identifiers (`result.id` / `property_id` in the source). -/
abbrev EntityId := Nat

/-- `weights.get(key, 0)` — dictionary lookup with default `0`, as performed in
`_weighted_rrf_merge` (`src/property_match.py` line 411). -/
def weightsGet (w : List (String × ℚ)) (key : String) : ℚ :=
  match w.find? (fun p => p.1 == key) with
  | some p => p.2
  | none => 0

/-- `scores[property_id] = scores.get(property_id, 0) + inc` — a Python dict
assignment: an existing key keeps its position and accumulates, a new key is
appended at the end (insertion order). From `src/property_match.py` line 415. -/
def updateScore : List (EntityId × ℚ) → EntityId → ℚ → List (EntityId × ℚ)
  | [], id, inc => [(id, inc)]
  | (i, s) :: rest, id, inc =>
    if i = id then (i, s + inc) :: rest
    else (i, s) :: updateScore rest id inc

/-- The inner loop of `_weighted_rrf_merge`: `for rank, result in
enumerate(results): scores[property_id] = scores.get(property_id, 0) +
weight * (1 / (k + rank + 1))` (`src/property_match.py` lines 412-415). -/
def addFacet (scores : List (EntityId × ℚ)) (weight : ℚ) (k : Nat)
    (results : List EntityId) : List (EntityId × ℚ) :=
  results.enum.foldl
    (fun sc p => updateScore sc p.2 (weight * (1 / ((k : ℚ) + (p.1 : ℚ) + 1))))
    scores

/-- The score accumulation of `_weighted_rrf_merge`: the outer loop over
`search_results.items()` (insertion order), `src/property_match.py`
lines 409-415. -/
def scoresOf (search_results : List (String × List EntityId))
    (weights : List (String × ℚ)) (k : Nat) : List (EntityId × ℚ) :=
  search_results.foldl
    (fun sc f => addFacet sc (weightsGet weights f.1) k f.2) []

/-- One step of the stable descending insertion sort used to model Python's
stable `sorted(scores.items(), key=lambda x: x[1], reverse=True)`
(`src/property_match.py` line 418): the inserted element `p` comes from
earlier in the input than everything in the already-sorted list, so it is
placed before the first element whose score is `≤` its own. -/
def insertDesc (p : EntityId × ℚ) : List (EntityId × ℚ) → List (EntityId × ℚ)
  | [] => [p]
  | q :: rest => if q.2 ≤ p.2 then p :: q :: rest else q :: insertDesc p rest

/-- Stable sort by score descending, modelling Python's stable
`sorted(..., key=lambda x: x[1], reverse=True)`: equal-score elements keep
their relative input order. -/
def sortDesc : List (EntityId × ℚ) → List (EntityId × ℚ)
  | [] => []
  | p :: rest => insertDesc p (sortDesc rest)

/-- `PropertySearcher._weighted_rrf_merge` from `src/property_match.py`
(lines 392-419): accumulate weighted reciprocal-rank contributions per entity
id, then sort by aggregated score descending (stable). -/
def weighted_rrf_merge (search_results : List (String × List EntityId))
    (weights : List (String × ℚ)) (k : Nat := 60) : List (EntityId × ℚ) :=
  sortDesc (scoresOf search_results weights k)

/-- `scores.get(id, 0)`: lookup in the accumulated score list with default 0,
as the Python dict read on `src/property_match.py` line 415. -/
def lookupD (l : List (EntityId × ℚ)) (id : EntityId) : ℚ :=
  match l.find? (fun p => p.1 == id) with
  | some p => p.2
  | none => 0

/-- Keys of a score list, in insertion order. -/
def keysOf (l : List (EntityId × ℚ)) : List EntityId := l.map Prod.fst

/-- How a Python dict's key sequence evolves on assignment: an existing key
stays in place, a new key is appended. -/
def insertKey (ks : List EntityId) (id : EntityId) : List EntityId :=
  if id ∈ ks then ks else ks ++ [id]

/-- The insertion order of first appearance of the ids, walking the facet
lists in map order and each ranked list front to back — the order in which
`_weighted_rrf_merge` first inserts each id into its `scores` dict. -/
def firstAppearanceOrder (search_results : List (String × List EntityId)) :
    List EntityId :=
  search_results.foldl (fun ks f => f.2.foldl insertKey ks) []

/-- Spec-side formula (§4.1 of the spec): the contribution of one ranked list
to an id's fused score is `1 / (k + rank + 1)` at the id's 0-based position
`rank`, and `0` when the id does not appear in the list. -/
def rankContribution (k : Nat) (ids : List EntityId) (id : EntityId) : ℚ :=
  if id ∈ ids then 1 / ((k : ℚ) + (ids.indexOf id : ℚ) + 1) else 0

/-- Spec-side formula: the fused score of an id is the sum over exactly the
facets in whose ranked list the id appears of
`w_f * (1 / (k + rank + 1))`. -/
def fusedScoreSpec (search_results : List (String × List EntityId))
    (weights : List (String × ℚ)) (k : Nat) (id : EntityId) : ℚ :=
  (search_results.map
    (fun f => weightsGet weights f.1 * rankContribution k f.2 id)).sum

/-- The id sits at rank 0 (the head) of every facet's ranked list, and there
is at least one facet. -/
abbrev atRankZeroEverywhere (search_results : List (String × List EntityId))
    (a : EntityId) : Prop :=
  search_results ≠ [] ∧ ∀ f ∈ search_results, f.2.head? = some a

/-- The id appears at rank 0 in exactly one facet's list and in no other
facet's list. -/
abbrev atRankZeroInExactlyOne (search_results : List (String × List EntityId))
    (b : EntityId) : Prop :=
  ∃ f ∈ search_results, f.2.head? = some b
    ∧ ∀ g ∈ search_results, b ∈ g.2 → g = f

/-- The id appears in exactly one facet's ranked list (at any rank). -/
abbrev inExactlyOneFacet (search_results : List (String × List EntityId))
    (b : EntityId) : Prop :=
  ∃ f ∈ search_results, b ∈ f.2
    ∧ ∀ g ∈ search_results, b ∈ g.2 → g = f

/-- Every facet present in the results map has a strictly positive weight. -/
abbrev allWeightsPositive (search_results : List (String × List EntityId))
    (weights : List (String × ℚ)) : Prop :=
  ∀ f ∈ search_results, 0 < weightsGet weights f.1

/-- Digit-string to number: the digit accumulation underlying Python
`float()` on an all-digit string; `none` when empty or a non-digit occurs. -/
def digitsToNat? (cs : List Char) : Option Nat :=
  if cs ≠ [] ∧ cs.all Char.isDigit then
    some (cs.foldl (fun n c => 10 * n + (c.toNat - 48)) 0)
  else none

/-- Python `float(s)` on plain decimal literals: optional sign, digits, and
an optional fractional part (`"5."` and `".5"` are accepted, `"."` is not);
`none` models a raised `ValueError`. Exponent forms, surrounding whitespace
and `inf`/`nan` are not modelled — no claim depends on them. -/
def parseFloatQ (s : String) : Option ℚ :=
  let sgn : ℚ := if s.startsWith "-" then -1 else 1
  let body : String :=
    if s.startsWith "-" ∨ s.startsWith "+" then s.drop 1 else s
  match body.splitOn "." with
  | [ip] =>
    match digitsToNat? ip.toList with
    | some n => some (sgn * (n : ℚ))
    | none => none
  | [ip, fp] =>
    if ip.isEmpty ∧ fp.isEmpty then none
    else
      match (if ip.isEmpty then some 0 else digitsToNat? ip.toList),
          (if fp.isEmpty then some 0 else digitsToNat? fp.toList) with
      | some i, some f =>
        some (sgn * ((i : ℚ) + (f : ℚ) / ((10 : ℚ) ^ fp.length)))
      | _, _ => none
  | _ => none

/-- `price_min, price_max = map(float, prop['price_range'].split('-'))`
(`src/property_match.py` line 275): exactly two `-`-separated fields, each a
parsable float; `none` models the raised exception (wrong field count or
unparsable part) that the per-record handler catches. -/
def parsePriceRange (s : String) : Option (ℚ × ℚ) :=
  match s.splitOn "-" with
  | [a, b] =>
    match parseFloatQ a, parseFloatQ b with
    | some x, some y => some (x, y)
    | _, _ => none
  | _ => none

/-- The `PropertyFilters` dataclass (`src/property_match.py` lines 32-44);
numeric bounds as exact rationals. -/
structure PropertyFilters where
  min_price : Option ℚ := none
  max_price : Option ℚ := none
  min_bedrooms : Option ℚ := none
  max_bedrooms : Option ℚ := none
  min_bathrooms : Option ℚ := none
  max_bathrooms : Option ℚ := none
  property_type : Option String := none
  must_have_amenities : List String := []
deriving DecidableEq

/-- A property record: the Python payload dict, restricted to the keys read
by either `apply_filters` implementation (`none` / `[]` model an absent
key; the `id` key, read only for the warning log, is omitted). -/
structure Record where
  price_range : Option String := none
  list_price : Option ℚ := none
  bedrooms : Option ℚ := none
  bathrooms : Option ℚ := none
  bedrooms_total : Option ℚ := none
  lp_calculated_bath : Option ℚ := none
  property_type : Option String := none
  amenities : List String := []
  lp_listing_description : Option String := none
deriving DecidableEq

/-- `bound is not None and value < bound` — the lower-bound rejection test
shared by the price/bedroom/bathroom filters. -/
def belowMin (bound : Option ℚ) (value : ℚ) : Bool :=
  match bound with
  | some m => value < m
  | none => false

/-- `bound is not None and value > bound` — the upper-bound rejection test. -/
def aboveMax (bound : Option ℚ) (value : ℚ) : Bool :=
  match bound with
  | some m => m < value
  | none => false

/-- The per-record body of `PropertySearcher.apply_filters` in
`src/property_match.py` (lines 271-315): `true` iff the record is appended to
`filtered_results`. A missing `price_range` key, a price-range parse failure
(the per-record exception caught on line 313), a missing bedroom or bathroom
count, a property-type mismatch or a missing required amenity all exclude the
record. -/
def matchesFilters (filters : PropertyFilters) (prop : Record) : Bool :=
  match prop.price_range with
  | none => false
  | some s =>
    match parsePriceRange s with
    | none => false
    | some pm =>
      if belowMin filters.min_price pm.2 then false
      else if aboveMax filters.max_price pm.1 then false
      else match prop.bedrooms with
      | none => false
      | some beds =>
        if belowMin filters.min_bedrooms beds then false
        else if aboveMax filters.max_bedrooms beds then false
        else match prop.bathrooms with
        | none => false
        | some baths =>
          if belowMin filters.min_bathrooms baths then false
          else if aboveMax filters.max_bathrooms baths then false
          else if (match filters.property_type with
            | some t => decide (prop.property_type ≠ some t)
            | none => false) then false
          else if filters.must_have_amenities.isEmpty then true
          else filters.must_have_amenities.all
            (fun a => prop.amenities.contains a)

/-- `PropertySearcher.apply_filters` from `src/property_match.py`
(lines 256-317). The `filters` argument is optional; `if not filters: return
properties` fires exactly when it is `None` (a dataclass instance is always
truthy); otherwise the surviving records are collected in input order. -/
def apply_filters (properties : List Record)
    (filters : Option PropertyFilters) : List Record :=
  match filters with
  | none => properties
  | some f => properties.filter (fun prop => matchesFilters f prop)

/-- Python's `needle in haystack` on strings: substring containment. -/
def strContainsSub (hay needle : String) : Bool :=
  hay.toList.tails.any (fun t => needle.toList.isPrefixOf t)

namespace PSearcher

/-- The checks of `PropertySearcher.apply_filters` in
`src/property_searcher.py` after the price block (lines 73-102): bedrooms are
read from `bedrooms_total`, bathrooms from `lp_calculated_bath`, and required
amenities are substring-matched against `lp_listing_description` (default
`""`). -/
def afterPrice (filters : PropertyFilters) (prop : Record) : Bool :=
  match prop.bedrooms_total with
  | none => false
  | some beds =>
    if belowMin filters.min_bedrooms beds then false
    else if aboveMax filters.max_bedrooms beds then false
    else match prop.lp_calculated_bath with
    | none => false
    | some baths =>
      if belowMin filters.min_bathrooms baths then false
      else if aboveMax filters.max_bathrooms baths then false
      else if (match filters.property_type with
        | some t => decide (prop.property_type ≠ some t)
        | none => false) then false
      else if filters.must_have_amenities.isEmpty then true
      else filters.must_have_amenities.all
        (fun a => strContainsSub (prop.lp_listing_description.getD "") a)

/-- The `elif 'list_price' in prop and prop.get('list_price'):` branch
(`src/property_searcher.py` lines 67-69). A `list_price` of 0 is falsy, so
the record falls to the final `else` and is excluded. Inside the branch,
`filters.min_price > lp or filters.max_price < lp` raises `TypeError` when a
bound is `None`; the per-record handler catches it and the record is
excluded. -/
def priceFromList (filters : PropertyFilters) (prop : Record) : Bool :=
  match prop.list_price with
  | none => false
  | some lp =>
    if lp = 0 then false
    else match filters.min_price with
    | none => false
    | some mn =>
      if lp < mn then false
      else match filters.max_price with
      | none => false
      | some mx =>
        if mx < lp then false
        else afterPrice filters prop

/-- The per-record body of `PropertySearcher.apply_filters` in
`src/property_searcher.py` (lines 58-105). The price block requires a truthy
`price_range` (a nonempty string), falling back to `list_price`. -/
def matchesFilters (filters : PropertyFilters) (prop : Record) : Bool :=
  match prop.price_range with
  | some s =>
    if s = "" then priceFromList filters prop
    else match parsePriceRange s with
    | none => false
    | some pm =>
      if belowMin filters.min_price pm.2 then false
      else if aboveMax filters.max_price pm.1 then false
      else afterPrice filters prop
  | none => priceFromList filters prop

/-- `PropertySearcher.apply_filters` from `src/property_searcher.py`
(lines 43-107). -/
def apply_filters (properties : List Record)
    (filters : Option PropertyFilters) : List Record :=
  match filters with
  | none => properties
  | some f => properties.filter (fun prop => matchesFilters f prop)

end PSearcher

namespace PSearcher

/-- `_weighted_rrf_merge` score assignment from `src/property_searcher.py`
line 206 — byte-identical to the `property_match.py` version. -/
def updateScore : List (EntityId × ℚ) → EntityId → ℚ → List (EntityId × ℚ)
  | [], id, inc => [(id, inc)]
  | (i, s) :: rest, id, inc =>
    if i = id then (i, s + inc) :: rest
    else (i, s) :: updateScore rest id inc

/-- Inner loop of `_weighted_rrf_merge`, `src/property_searcher.py`
lines 203-206. -/
def addFacet (scores : List (EntityId × ℚ)) (weight : ℚ) (k : Nat)
    (results : List EntityId) : List (EntityId × ℚ) :=
  results.enum.foldl
    (fun sc p => updateScore sc p.2 (weight * (1 / ((k : ℚ) + (p.1 : ℚ) + 1))))
    scores

/-- Outer loop of `_weighted_rrf_merge`, `src/property_searcher.py`
lines 200-206. -/
def scoresOf (search_results : List (String × List EntityId))
    (weights : List (String × ℚ)) (k : Nat) : List (EntityId × ℚ) :=
  search_results.foldl
    (fun sc f => addFacet sc (weightsGet weights f.1) k f.2) []

/-- Stable descending insertion step for the `sorted` call on
`src/property_searcher.py` line 209. -/
def insertDesc (p : EntityId × ℚ) : List (EntityId × ℚ) → List (EntityId × ℚ)
  | [] => [p]
  | q :: rest => if q.2 ≤ p.2 then p :: q :: rest else q :: insertDesc p rest

/-- Stable sort by score descending, `src/property_searcher.py` line 209. -/
def sortDesc : List (EntityId × ℚ) → List (EntityId × ℚ)
  | [] => []
  | p :: rest => insertDesc p (sortDesc rest)

/-- `PropertySearcher._weighted_rrf_merge` from `src/property_searcher.py`
(lines 183-210). -/
def weighted_rrf_merge (search_results : List (String × List EntityId))
    (weights : List (String × ℚ)) (k : Nat := 60) : List (EntityId × ℚ) :=
  sortDesc (scoresOf search_results weights k)

end PSearcher

/-- A vector-store point as returned by `client.retrieve` /
`client.query_points`: an id, a vector (`[]` models a missing or falsy
vector) and an optional payload (`none` models a missing or falsy payload). -/
structure Point where
  id : EntityId
  vector : List ℚ := []
  payload : Option Record := none

/-- The two collaborator calls used by `search_similar_properties`;
an `Except.error` result models the underlying client call raising an
exception. -/
structure Client where
  retrieve : String → List EntityId → Except String (List Point)
  query_points : String → List ℚ → Nat → Except String (List Point)

/-- The `SearchMode` enum (`src/property_match.py` lines 22-30). -/
inductive SearchMode where
  | balanced
  | visual_focus
  | features_focus
  | location_focus
deriving DecidableEq

/-- The weight tables built in `PropertySearcher.__init__`
(`src/property_match.py` lines 233-254). `self.search_modes[mode.value]`
always succeeds since all four enum values are keys of the dict. -/
def search_modes : SearchMode → List (String × ℚ)
  | .balanced => [("location", 0.4), ("features", 0.4), ("visual", 0.2)]
  | .visual_focus => [("location", 0.1), ("features", 0.1), ("visual", 0.8)]
  | .features_focus => [("location", 0.1), ("features", 0.8), ("visual", 0.1)]
  | .location_focus => [("location", 0.8), ("features", 0.1), ("visual", 0.1)]

/-- One iteration of the facet loop of `search_similar_properties`
(`src/property_match.py` lines 346-368): retrieve the query vector from
`{key}_vectors` — raising `ValueError` when no point or a falsy vector comes
back (line 357) — then fetch `top_k * 2` neighbours via `query_points`. -/
def retrieveRanked (c : Client) (key : String) (property_id : EntityId)
    (top_k : Nat) : Except String (List EntityId) :=
  match c.retrieve (key ++ "_vectors") [property_id] with
  | Except.error e => Except.error e
  | Except.ok [] =>
    Except.error ("Property ID not found in " ++ key ++ "_vectors")
  | Except.ok (p :: _) =>
    if p.vector = [] then
      Except.error ("Property ID not found in " ++ key ++ "_vectors")
    else
      match c.query_points (key ++ "_vectors") p.vector (top_k * 2) with
      | Except.error e => Except.error e
      | Except.ok res => Except.ok (res.map (fun r => r.id))

/-- The hydration loop of `search_similar_properties`
(`src/property_match.py` lines 374-382): retrieve each merged id's point from
`location_vectors`, keep the payload when the point list and the payload are
truthy, and exclude the query id itself. -/
def hydrate (c : Client) (property_id : EntityId)
    (merged : List (EntityId × ℚ)) : Except String (List Record) :=
  merged.foldl
    (fun acc pr =>
      match acc with
      | Except.error e => Except.error e
      | Except.ok properties =>
        match c.retrieve "location_vectors" [pr.1] with
        | Except.error e => Except.error e
        | Except.ok [] => Except.ok properties
        | Except.ok (p :: _) =>
          match p.payload with
          | some payload =>
            if pr.1 ≠ property_id then Except.ok (properties ++ [payload])
            else Except.ok properties
          | none => Except.ok properties)
    (Except.ok [])

/-- The body of the `try:` block of `search_similar_properties`
(`src/property_match.py` lines 338-386): weight lookup, the facet loop over
`location`, `features`, `visual` in order, the weighted RRF merge with
`k = 60`, hydration of the top `top_k * 5` merged ids, filtering, and the
final truncation to `top_k`. `Except.error` models a raised exception
propagating to the `except` handler. -/
def searchCore (c : Client) (property_id : EntityId) (mode : SearchMode)
    (filters : Option PropertyFilters) (top_k : Nat) :
    Except String (List Record) :=
  let weights := search_modes mode
  match retrieveRanked c "location" property_id top_k with
  | Except.error e => Except.error e
  | Except.ok loc =>
    match retrieveRanked c "features" property_id top_k with
    | Except.error e => Except.error e
    | Except.ok feat =>
      match retrieveRanked c "visual" property_id top_k with
      | Except.error e => Except.error e
      | Except.ok vis =>
        let search_results :=
          [("location", loc), ("features", feat), ("visual", vis)]
        let merged := weighted_rrf_merge search_results weights 60
        match hydrate c property_id (merged.take (top_k * 5)) with
        | Except.error e => Except.error e
        | Except.ok properties =>
          Except.ok ((apply_filters properties filters).take top_k)

/-- `PropertySearcher.search_similar_properties`
(`src/property_match.py` lines 319-390): the `try`/`except Exception` wrapper
— any exception raised by the body is caught, logged, and the empty list is
returned to the caller. -/
def search_similar_properties (c : Client) (property_id : EntityId)
    (mode : SearchMode := .balanced)
    (filters : Option PropertyFilters := none) (top_k : Nat := 10) :
    List Record :=
  match searchCore c property_id mode filters top_k with
  | Except.ok r => r
  | Except.error _ => []

/-- The collaborator never yields a usable query vector from this collection
for this id: every successful `retrieve` returns no point, or a first point
whose vector is falsy (empty) — the condition under which line 357 of
`src/property_match.py` raises. -/
abbrev vectorMissing (c : Client) (collection : String)
    (property_id : EntityId) : Prop :=
  ∀ pts, c.retrieve collection [property_id] = Except.ok pts →
    pts = [] ∨ ∃ p rest, pts = p :: rest ∧ p.vector = []

/-- A demonstration client whose `visual_vectors` collection has no point for
any id, while the other collections return a point with a nonempty vector and
two neighbours. -/
def demoClient : Client where
  retrieve := fun collection ids =>
    if collection = "visual_vectors" then Except.ok []
    else Except.ok [⟨ids.headD 0, [1, 0], some {}⟩]
  query_points := fun _ _ _ =>
    Except.ok [⟨2, [], none⟩, ⟨3, [], none⟩]

/-- A record carrying only searcher-style fields (`list_price`,
`bedrooms_total`, `lp_calculated_bath`) and no `price_range`. -/
def demoRecord : Record :=
  { list_price := some 100, bedrooms_total := some 2,
    lp_calculated_bath := some 1 }

/-- A filter spec that only bounds the price. -/
def demoFilters : PropertyFilters :=
  { min_price := some 50, max_price := some 200 }

theorem lookupD_nil (id : EntityId) : lookupD [] id = 0 := rfl

theorem lookupD_cons (p : EntityId × ℚ) (l : List (EntityId × ℚ))
    (id : EntityId) :
    lookupD (p :: l) id = if p.1 = id then p.2 else lookupD l id := by
  by_cases h : p.1 = id <;> simp [lookupD, List.find?_cons, h]

theorem lookupD_updateScore (s : List (EntityId × ℚ)) (id id' : EntityId)
    (inc : ℚ) :
    lookupD (updateScore s id inc) id'
      = lookupD s id' + (if id' = id then inc else 0) := by
  induction s with
  | nil =>
    by_cases h : id' = id <;>
      simp [updateScore, lookupD_cons, lookupD_nil, h, Ne.symm]
  | cons p rest ih =>
    obtain ⟨i, v⟩ := p
    by_cases hi : i = id
    · subst hi
      by_cases h : id' = i <;>
        simp [updateScore, lookupD_cons, h, Ne.symm, add_comm]
    · by_cases h : id' = i
      · subst h
        simp [updateScore, hi, lookupD_cons]
      · simp [updateScore, hi, lookupD_cons, Ne.symm h, ih]

theorem keysOf_updateScore (s : List (EntityId × ℚ)) (id : EntityId)
    (inc : ℚ) :
    keysOf (updateScore s id inc) = insertKey (keysOf s) id := by
  induction s with
  | nil => simp [updateScore, keysOf, insertKey]
  | cons p rest ih =>
    obtain ⟨i, v⟩ := p
    by_cases hi : i = id
    · subst hi
      simp [updateScore, keysOf, insertKey]
    · have h1 : keysOf (updateScore ((i, v) :: rest) id inc)
          = i :: keysOf (updateScore rest id inc) := by
        simp [updateScore, hi, keysOf]
      rw [h1, ih]
      by_cases hmem : id ∈ List.map Prod.fst rest <;>
        simp [insertKey, keysOf, hmem, Ne.symm hi]

theorem nodup_insertKey (ks : List EntityId) (id : EntityId)
    (h : ks.Nodup) : (insertKey ks id).Nodup := by
  by_cases hmem : id ∈ ks
  · simpa [insertKey, hmem] using h
  · rw [insertKey, if_neg hmem]
    refine List.Nodup.append h (List.nodup_singleton id) ?_
    intro a ha hb
    rw [List.mem_singleton] at hb
    exact hmem (hb ▸ ha)

theorem mem_insertKey (ks : List EntityId) (id a : EntityId) :
    a ∈ insertKey ks id ↔ a ∈ ks ∨ a = id := by
  by_cases hmem : id ∈ ks
  · constructor
    · intro hx; exact Or.inl (by simpa [insertKey, hmem] using hx)
    · rintro (hx | rfl)
      · simp [insertKey, hmem, hx]
      · simp [insertKey, hmem]
  · simp [insertKey, hmem, or_comm]

theorem keysOf_nodup_updateScore (s : List (EntityId × ℚ)) (id : EntityId)
    (inc : ℚ) (h : (keysOf s).Nodup) :
    (keysOf (updateScore s id inc)).Nodup := by
  rw [keysOf_updateScore]; exact nodup_insertKey _ _ h

theorem lookupD_of_mem (l : List (EntityId × ℚ)) (p : EntityId × ℚ)
    (hmem : p ∈ l) (hnd : (keysOf l).Nodup) : lookupD l p.1 = p.2 := by
  induction l with
  | nil => cases hmem
  | cons q rest ih =>
    rcases List.mem_cons.mp hmem with h | h
    · subst h; simp [lookupD_cons]
    · have hq : q.1 ≠ p.1 := by
        intro he
        have : p.1 ∈ keysOf rest := List.mem_map_of_mem Prod.fst h
        rw [keysOf, List.map_cons, List.nodup_cons] at hnd
        exact hnd.1 (he ▸ this)
      rw [lookupD_cons, if_neg hq]
      exact ih h (by
        rw [keysOf, List.map_cons, List.nodup_cons] at hnd
        exact hnd.2)

theorem lookupD_enumFrom_foldl (w : ℚ) (k : Nat) (ids : List EntityId) :
    ∀ (n : Nat) (s : List (EntityId × ℚ)) (id : EntityId), ids.Nodup →
    lookupD ((List.enumFrom n ids).foldl
        (fun sc p => updateScore sc p.2 (w * (1 / ((k : ℚ) + (p.1 : ℚ) + 1)))) s) id
      = lookupD s id +
        (if id ∈ ids then
          w * (1 / ((k : ℚ) + (n : ℚ) + (ids.indexOf id : ℚ) + 1)) else 0) := by
  induction ids with
  | nil => intro n s id _; simp [List.enumFrom]
  | cons x xs ih =>
    intro n s id hnd
    rw [List.nodup_cons] at hnd
    rw [List.enumFrom_cons, List.foldl_cons]
    by_cases hid : id = x
    · subst hid
      rw [ih (n + 1) _ id hnd.2, lookupD_updateScore, if_pos rfl,
        if_neg hnd.1, if_pos (List.mem_cons_self id xs),
        List.indexOf_cons_self]
      push_cast
      ring_nf
    · rw [ih (n + 1) _ id hnd.2, lookupD_updateScore, if_neg hid]
      by_cases hmem : id ∈ xs
      · rw [if_pos hmem, if_pos (List.mem_cons_of_mem x hmem),
          List.indexOf_cons_ne xs (Ne.symm hid)]
        push_cast
        ring_nf
      · rw [if_neg hmem, if_neg (by
          intro hc
          rcases List.mem_cons.mp hc with h | h
          · exact hid h
          · exact hmem h)]
        ring

theorem lookupD_addFacet (s : List (EntityId × ℚ)) (w : ℚ) (k : Nat)
    (ids : List EntityId) (id : EntityId) (hnd : ids.Nodup) :
    lookupD (addFacet s w k ids) id
      = lookupD s id + w * rankContribution k ids id := by
  rw [addFacet, show ids.enum = List.enumFrom 0 ids from rfl,
    lookupD_enumFrom_foldl w k ids 0 s id hnd, rankContribution]
  by_cases hmem : id ∈ ids
  · rw [if_pos hmem, if_pos hmem]
    push_cast
    ring_nf
  · rw [if_neg hmem, if_neg hmem, mul_zero]

theorem keysOf_enumFrom_foldl (w : ℚ) (k : Nat) (ids : List EntityId) :
    ∀ (n : Nat) (s : List (EntityId × ℚ)),
    keysOf ((List.enumFrom n ids).foldl
        (fun sc p => updateScore sc p.2 (w * (1 / ((k : ℚ) + (p.1 : ℚ) + 1)))) s)
      = ids.foldl insertKey (keysOf s) := by
  induction ids with
  | nil => intro n s; simp [List.enumFrom]
  | cons x xs ih =>
    intro n s
    rw [List.enumFrom_cons, List.foldl_cons, List.foldl_cons, ih (n + 1),
      keysOf_updateScore]

theorem keysOf_addFacet (s : List (EntityId × ℚ)) (w : ℚ) (k : Nat)
    (ids : List EntityId) :
    keysOf (addFacet s w k ids) = ids.foldl insertKey (keysOf s) := by
  rw [addFacet, show ids.enum = List.enumFrom 0 ids from rfl,
    keysOf_enumFrom_foldl]

theorem nodup_foldl_insertKey (ids : List EntityId) :
    ∀ (ks : List EntityId), ks.Nodup → (ids.foldl insertKey ks).Nodup := by
  induction ids with
  | nil => intro ks h; simpa using h
  | cons x xs ih =>
    intro ks h
    rw [List.foldl_cons]
    exact ih _ (nodup_insertKey ks x h)

theorem mem_foldl_insertKey (ids : List EntityId) :
    ∀ (ks : List EntityId) (a : EntityId),
    a ∈ ids.foldl insertKey ks ↔ a ∈ ks ∨ a ∈ ids := by
  induction ids with
  | nil => intro ks a; simp
  | cons x xs ih =>
    intro ks a
    rw [List.foldl_cons, ih, mem_insertKey]
    constructor
    · rintro ((h | h) | h)
      · exact Or.inl h
      · exact Or.inr (h ▸ List.mem_cons_self x xs)
      · exact Or.inr (List.mem_cons_of_mem x h)
    · rintro (h | h)
      · exact Or.inl (Or.inl h)
      · rcases List.mem_cons.mp h with h | h
        · exact Or.inl (Or.inr h)
        · exact Or.inr h

theorem lookupD_scoresOf_foldl (weights : List (String × ℚ)) (k : Nat)
    (sr : List (String × List EntityId)) :
    ∀ (s : List (EntityId × ℚ)) (id : EntityId),
    (∀ f ∈ sr, f.2.Nodup) →
    lookupD (sr.foldl (fun sc f => addFacet sc (weightsGet weights f.1) k f.2) s) id
      = lookupD s id + fusedScoreSpec sr weights k id := by
  induction sr with
  | nil => intro s id _; simp [fusedScoreSpec]
  | cons f rest ih =>
    intro s id hnd
    rw [List.foldl_cons,
      ih _ id (fun g hg => hnd g (List.mem_cons_of_mem f hg)),
      lookupD_addFacet _ _ _ _ _ (hnd f (List.mem_cons_self f rest))]
    simp only [fusedScoreSpec, List.map_cons, List.sum_cons]
    ring

/-- The score held for `id` in the accumulated `scores` dict equals the
spec's fused-score formula (per-facet ranked lists assumed duplicate-free,
which is the spec's RankedList invariant). -/
theorem lookupD_scoresOf (sr : List (String × List EntityId))
    (weights : List (String × ℚ)) (k : Nat) (id : EntityId)
    (hnd : ∀ f ∈ sr, f.2.Nodup) :
    lookupD (scoresOf sr weights k) id = fusedScoreSpec sr weights k id := by
  rw [scoresOf, lookupD_scoresOf_foldl weights k sr [] id hnd, lookupD_nil,
    zero_add]

theorem keysOf_scoresOf_foldl (weights : List (String × ℚ)) (k : Nat)
    (sr : List (String × List EntityId)) :
    ∀ (s : List (EntityId × ℚ)),
    keysOf (sr.foldl (fun sc f => addFacet sc (weightsGet weights f.1) k f.2) s)
      = sr.foldl (fun ks f => f.2.foldl insertKey ks) (keysOf s) := by
  induction sr with
  | nil => intro s; rfl
  | cons f rest ih =>
    intro s
    rw [List.foldl_cons, List.foldl_cons, ih, keysOf_addFacet]

/-- The ids of the accumulated `scores` dict are exactly the ids of the
ranked lists, in insertion order of first appearance. -/
theorem keysOf_scoresOf (sr : List (String × List EntityId))
    (weights : List (String × ℚ)) (k : Nat) :
    keysOf (scoresOf sr weights k) = firstAppearanceOrder sr := by
  rw [scoresOf, keysOf_scoresOf_foldl, firstAppearanceOrder]
  rfl

theorem nodup_firstAppearanceOrder (sr : List (String × List EntityId)) :
    (firstAppearanceOrder sr).Nodup := by
  rw [firstAppearanceOrder]
  have h : ∀ (l : List (String × List EntityId)) (ks : List EntityId),
      ks.Nodup → (l.foldl (fun ks f => f.2.foldl insertKey ks) ks).Nodup := by
    intro l
    induction l with
    | nil => intro ks h; simpa using h
    | cons f rest ih =>
      intro ks h
      rw [List.foldl_cons]
      exact ih _ (nodup_foldl_insertKey f.2 ks h)
  exact h sr [] List.nodup_nil

theorem mem_firstAppearanceOrder (sr : List (String × List EntityId))
    (a : EntityId) :
    a ∈ firstAppearanceOrder sr ↔ ∃ f ∈ sr, a ∈ f.2 := by
  rw [firstAppearanceOrder]
  have h : ∀ (l : List (String × List EntityId)) (ks : List EntityId),
      a ∈ l.foldl (fun ks f => f.2.foldl insertKey ks) ks
        ↔ a ∈ ks ∨ ∃ f ∈ l, a ∈ f.2 := by
    intro l
    induction l with
    | nil => intro ks; simp
    | cons f rest ih =>
      intro ks
      rw [List.foldl_cons, ih, mem_foldl_insertKey]
      constructor
      · rintro ((h | h) | ⟨g, hg, hag⟩)
        · exact Or.inl h
        · exact Or.inr ⟨f, List.mem_cons_self f rest, h⟩
        · exact Or.inr ⟨g, List.mem_cons_of_mem f hg, hag⟩
      · rintro (h | ⟨g, hg, hag⟩)
        · exact Or.inl (Or.inl h)
        · rcases List.mem_cons.mp hg with h | h
          · exact Or.inl (Or.inr (h ▸ hag))
          · exact Or.inr ⟨g, h, hag⟩
  rw [h sr []]
  simp

theorem insertDesc_perm (p : EntityId × ℚ) (l : List (EntityId × ℚ)) :
    (insertDesc p l).Perm (p :: l) := by
  induction l with
  | nil => exact List.Perm.refl _
  | cons q rest ih =>
    by_cases h : q.2 ≤ p.2
    · rw [insertDesc, if_pos h]
    · rw [insertDesc, if_neg h]
      exact ((ih.cons q).trans (List.Perm.swap p q rest))

theorem sortDesc_perm (l : List (EntityId × ℚ)) : (sortDesc l).Perm l := by
  induction l with
  | nil => exact List.Perm.refl _
  | cons p rest ih =>
    exact (insertDesc_perm p (sortDesc rest)).trans (ih.cons p)

theorem insertDesc_pairwise {R : (EntityId × ℚ) → (EntityId × ℚ) → Prop}
    (x : EntityId × ℚ) (l : List (EntityId × ℚ))
    (hs : l.Pairwise (fun p q => q.2 ≤ p.2))
    (hr : l.Pairwise R)
    (hx : ∀ q ∈ l, (q.2 ≤ x.2 → R x q) ∧ (x.2 < q.2 → R q x)) :
    (insertDesc x l).Pairwise (fun p q => q.2 ≤ p.2)
      ∧ (insertDesc x l).Pairwise R := by
  induction l with
  | nil => constructor <;> simp [insertDesc]
  | cons q rest ih =>
    rw [List.pairwise_cons] at hs hr
    by_cases hle : q.2 ≤ x.2
    · rw [insertDesc, if_pos hle]
      constructor
      · refine List.Pairwise.cons ?_ (List.pairwise_cons.mpr ⟨hs.1, hs.2⟩)
        intro r hr'
        rcases List.mem_cons.mp hr' with rfl | hmem
        · exact hle
        · exact le_trans (hs.1 r hmem) hle
      · refine List.Pairwise.cons ?_ (List.pairwise_cons.mpr ⟨hr.1, hr.2⟩)
        intro r hr'
        rcases List.mem_cons.mp hr' with rfl | hmem
        · exact (hx r (List.mem_cons_self r rest)).1 hle
        · exact (hx r (List.mem_cons_of_mem q hmem)).1
            (le_trans (hs.1 r hmem) hle)
    · rw [insertDesc, if_neg hle]
      push_neg at hle
      have ihres := ih hs.2 hr.2
        (fun r hmem => hx r (List.mem_cons_of_mem q hmem))
      constructor
      · refine List.Pairwise.cons ?_ ihres.1
        intro r hr'
        rcases List.mem_cons.mp ((insertDesc_perm x rest).mem_iff.mp hr') with h | h
        · subst h; exact le_of_lt hle
        · exact hs.1 r h
      · refine List.Pairwise.cons ?_ ihres.2
        intro r hr'
        rcases List.mem_cons.mp ((insertDesc_perm x rest).mem_iff.mp hr') with h | h
        · subst h
          exact (hx q (List.mem_cons_self q rest)).2 hle
        · exact hr.1 r h

theorem sortDesc_sorted_and_stable (l : List (EntityId × ℚ)) :
    (sortDesc l).Pairwise (fun p q => q.2 ≤ p.2)
      ∧ (sortDesc l).Pairwise
          (fun p q => q.2 < p.2 ∨ (q.2 = p.2 ∧ [p, q].Sublist l)) := by
  induction l with
  | nil => constructor <;> simp [sortDesc]
  | cons x xs ih =>
    have hweak : (sortDesc xs).Pairwise
        (fun p q => q.2 < p.2 ∨ (q.2 = p.2 ∧ [p, q].Sublist (x :: xs))) :=
      ih.2.imp (fun h => by
        rcases h with h | ⟨he, hs⟩
        · exact Or.inl h
        · exact Or.inr ⟨he, hs.cons x⟩)
    have hx : ∀ q ∈ sortDesc xs,
        (q.2 ≤ x.2 → (q.2 < x.2 ∨ (q.2 = x.2 ∧ [x, q].Sublist (x :: xs))))
          ∧ (x.2 < q.2 → (x.2 < q.2 ∨ (x.2 = q.2 ∧ [q, x].Sublist (x :: xs)))) := by
      intro q hq
      have hqxs : q ∈ xs := (sortDesc_perm xs).mem_iff.mp hq
      constructor
      · intro hle
        rcases lt_or_eq_of_le hle with h | h
        · exact Or.inl h
        · exact Or.inr ⟨h, List.Sublist.cons₂ x (List.singleton_sublist.mpr hqxs)⟩
      · intro hlt
        exact Or.inl hlt
    rw [sortDesc]
    exact insertDesc_pairwise x (sortDesc xs) ih.1 hweak hx

/-- In a duplicate-free list, a two-element sublist orders the positions. -/
theorem indexOf_lt_of_pair_sublist (K : List EntityId) (a b : EntityId)
    (h : [a, b].Sublist K) (hnd : K.Nodup) :
    K.indexOf a < K.indexOf b := by
  induction K with
  | nil => cases h
  | cons x xs ih =>
    rw [List.nodup_cons] at hnd
    cases h with
    | cons _ h' =>
      have ha : a ∈ xs := h'.mem (List.mem_cons_self a [b])
      have hb : b ∈ xs := h'.mem (List.mem_cons_of_mem a (List.mem_cons_self b []))
      have hax : a ≠ x := fun he => hnd.1 (he ▸ ha)
      have hbx : b ≠ x := fun he => hnd.1 (he ▸ hb)
      rw [List.indexOf_cons_ne xs (Ne.symm hax),
        List.indexOf_cons_ne xs (Ne.symm hbx)]
      exact Nat.succ_lt_succ (ih h' hnd.2)
    | cons₂ _ h' =>
      have hb : b ∈ xs := List.singleton_sublist.mp h'
      have hba : b ≠ a := fun he => hnd.1 (he ▸ hb)
      rw [List.indexOf_cons_self, List.indexOf_cons_ne xs (Ne.symm hba)]
      exact Nat.succ_pos _

theorem lookupD_eq_zero_of_not_mem (l : List (EntityId × ℚ)) (id : EntityId)
    (h : id ∉ keysOf l) : lookupD l id = 0 := by
  induction l with
  | nil => rfl
  | cons p rest ih =>
    rw [keysOf, List.map_cons, List.mem_cons, not_or] at h
    rw [lookupD_cons, if_neg (fun he => h.1 he.symm)]
    exact ih h.2

theorem lookupD_perm (M S : List (EntityId × ℚ)) (hperm : M.Perm S)
    (hnd : (keysOf S).Nodup) (id : EntityId) : lookupD M id = lookupD S id := by
  have hkp : (keysOf M).Perm (keysOf S) := hperm.map Prod.fst
  by_cases hmem : id ∈ keysOf S
  · obtain ⟨p, hpS, hp1⟩ := List.mem_map.mp hmem
    have hndM : (keysOf M).Nodup := hkp.nodup_iff.mpr hnd
    rw [← hp1, lookupD_of_mem S p hpS hnd,
      lookupD_of_mem M p (hperm.mem_iff.mpr hpS) hndM]
  · rw [lookupD_eq_zero_of_not_mem S id hmem,
      lookupD_eq_zero_of_not_mem M id (fun hc => hmem (hkp.mem_iff.mp hc))]

theorem weighted_rrf_merge_perm (sr : List (String × List EntityId))
    (w : List (String × ℚ)) (k : Nat) :
    (weighted_rrf_merge sr w k).Perm (scoresOf sr w k) :=
  sortDesc_perm _

theorem keysOf_merge_nodup (sr : List (String × List EntityId))
    (w : List (String × ℚ)) (k : Nat) :
    (keysOf (weighted_rrf_merge sr w k)).Nodup := by
  have hkp : (keysOf (weighted_rrf_merge sr w k)).Perm (keysOf (scoresOf sr w k)) :=
    (weighted_rrf_merge_perm sr w k).map Prod.fst
  rw [hkp.nodup_iff, keysOf_scoresOf]
  exact nodup_firstAppearanceOrder sr

theorem lookupD_merge (sr : List (String × List EntityId))
    (w : List (String × ℚ)) (k : Nat) (id : EntityId)
    (hnd : ∀ f ∈ sr, f.2.Nodup) :
    lookupD (weighted_rrf_merge sr w k) id = fusedScoreSpec sr w k id := by
  rw [lookupD_perm _ _ (weighted_rrf_merge_perm sr w k)
      (by rw [keysOf_scoresOf]; exact nodup_firstAppearanceOrder sr) id,
    lookupD_scoresOf sr w k id hnd]

theorem score_eq_fusedScoreSpec_of_mem_merge
    (sr : List (String × List EntityId)) (w : List (String × ℚ)) (k : Nat)
    (p : EntityId × ℚ) (hp : p ∈ weighted_rrf_merge sr w k)
    (hnd : ∀ f ∈ sr, f.2.Nodup) : p.2 = fusedScoreSpec sr w k p.1 := by
  rw [← lookupD_merge sr w k p.1 hnd]
  exact (lookupD_of_mem _ p hp (keysOf_merge_nodup sr w k)).symm

theorem mem_keysOf_merge (sr : List (String × List EntityId))
    (w : List (String × ℚ)) (k : Nat) (id : EntityId) :
    id ∈ keysOf (weighted_rrf_merge sr w k) ↔ ∃ f ∈ sr, id ∈ f.2 := by
  have hkp : (keysOf (weighted_rrf_merge sr w k)).Perm (keysOf (scoresOf sr w k)) :=
    (weighted_rrf_merge_perm sr w k).map Prod.fst
  rw [hkp.mem_iff, keysOf_scoresOf]
  exact mem_firstAppearanceOrder sr id

theorem merge_sorted (sr : List (String × List EntityId))
    (w : List (String × ℚ)) (k : Nat) :
    (weighted_rrf_merge sr w k).Pairwise (fun p q => q.2 ≤ p.2) :=
  (sortDesc_sorted_and_stable (scoresOf sr w k)).1

/-- Reading a position in the key list is reading the first component at that
position. -/
theorem keysOf_get (l : List (EntityId × ℚ)) (n : Nat) (h : n < l.length)
    (h' : n < (keysOf l).length) :
    (keysOf l).get ⟨n, h'⟩ = (l.get ⟨n, h⟩).1 := by
  simp [keysOf]

/-- In a key-duplicate-free, score-descending list, an id with a strictly
larger stored score sits at a strictly earlier position. -/
theorem indexOf_keys_lt_of_score_lt (M : List (EntityId × ℚ))
    (hnd : (keysOf M).Nodup)
    (hs : M.Pairwise (fun p q => q.2 ≤ p.2))
    (a b : EntityId) (ha : a ∈ keysOf M) (hb : b ∈ keysOf M)
    (hlt : lookupD M b < lookupD M a) :
    (keysOf M).indexOf a < (keysOf M).indexOf b := by
  have hlen : (keysOf M).length = M.length := List.length_map M Prod.fst
  have hia' : (keysOf M).indexOf a < (keysOf M).length :=
    List.indexOf_lt_length.mpr ha
  have hib' : (keysOf M).indexOf b < (keysOf M).length :=
    List.indexOf_lt_length.mpr hb
  have hia : (keysOf M).indexOf a < M.length := hlen ▸ hia'
  have hib : (keysOf M).indexOf b < M.length := hlen ▸ hib'
  have hgeta : (M.get ⟨(keysOf M).indexOf a, hia⟩).1 = a := by
    rw [← keysOf_get M _ hia hia']
    exact List.indexOf_get hia'
  have hgetb : (M.get ⟨(keysOf M).indexOf b, hib⟩).1 = b := by
    rw [← keysOf_get M _ hib hib']
    exact List.indexOf_get hib'
  have hva : (M.get ⟨(keysOf M).indexOf a, hia⟩).2 = lookupD M a := by
    have h0 := lookupD_of_mem M (M.get ⟨(keysOf M).indexOf a, hia⟩)
      (List.get_mem M _ hia) hnd
    rw [hgeta] at h0
    exact h0.symm
  have hvb : (M.get ⟨(keysOf M).indexOf b, hib⟩).2 = lookupD M b := by
    have h0 := lookupD_of_mem M (M.get ⟨(keysOf M).indexOf b, hib⟩)
      (List.get_mem M _ hib) hnd
    rw [hgetb] at h0
    exact h0.symm
  rcases Nat.lt_trichotomy ((keysOf M).indexOf a) ((keysOf M).indexOf b)
    with h | h | h
  · exact h
  · exfalso
    have hfin : (⟨(keysOf M).indexOf a, hia⟩ : Fin M.length)
        = ⟨(keysOf M).indexOf b, hib⟩ := Fin.ext h
    rw [hfin, hvb] at hva
    rw [hva] at hlt
    exact lt_irrefl _ hlt
  · exfalso
    have hpq := List.pairwise_iff_get.mp hs
      ⟨(keysOf M).indexOf b, hib⟩ ⟨(keysOf M).indexOf a, hia⟩ h
    rw [hva, hvb] at hpq
    exact absurd hlt (not_lt.mpr hpq)

/-- C1. For every per-facet results map, weight map and constant `k`, the
fused score of an entity id in the output of `_weighted_rrf_merge` is the sum
over exactly the facets in whose ranked list that id appears of
`w_f * (1 / (k + rank + 1))` (`rank` the 0-based position, per-facet lists
duplicate-free as the data model requires), the output is sorted by score
descending, and the output ids are exactly those appearing in some facet; in
particular, in the spec's rotation scenario (A=1, B=2, C=3) the id A is
returned with fused score `0.4/61 + 0.4/63 + 0.2/62`. -/
theorem claim_C1_weighted_rrf_formula :
    (∀ (sr : List (String × List EntityId)) (w : List (String × ℚ)) (k : Nat),
      (∀ f ∈ sr, f.2.Nodup) →
      (∀ p ∈ weighted_rrf_merge sr w k, p.2 = fusedScoreSpec sr w k p.1)
        ∧ (weighted_rrf_merge sr w k).Pairwise (fun p q => q.2 ≤ p.2)
        ∧ (∀ id, (∃ f ∈ sr, id ∈ f.2)
            ↔ ∃ s, (id, s) ∈ weighted_rrf_merge sr w k))
    ∧ (∃ s, (1, s) ∈ weighted_rrf_merge
        [("location", [1, 2, 3]), ("features", [2, 3, 1]), ("visual", [3, 1, 2])]
        [("location", 0.4), ("features", 0.4), ("visual", 0.2)] 60
        ∧ s = 0.4 / 61 + 0.4 / 63 + 0.2 / 62) := by
  have main : ∀ (sr : List (String × List EntityId)) (w : List (String × ℚ))
      (k : Nat), (∀ f ∈ sr, f.2.Nodup) →
      (∀ p ∈ weighted_rrf_merge sr w k, p.2 = fusedScoreSpec sr w k p.1)
        ∧ (weighted_rrf_merge sr w k).Pairwise (fun p q => q.2 ≤ p.2)
        ∧ (∀ id, (∃ f ∈ sr, id ∈ f.2)
            ↔ ∃ s, (id, s) ∈ weighted_rrf_merge sr w k) := by
    intro sr w k hnd
    refine ⟨fun p hp => score_eq_fusedScoreSpec_of_mem_merge sr w k p hp hnd,
      merge_sorted sr w k, fun id => ?_⟩
    rw [← mem_keysOf_merge sr w k id, keysOf, List.mem_map]
    constructor
    · rintro ⟨p, hp, rfl⟩
      exact ⟨p.2, hp⟩
    · rintro ⟨s, hs⟩
      exact ⟨(id, s), hs, rfl⟩
  refine ⟨main, ?_⟩
  have hnd : ∀ f ∈ ([("location", [1, 2, 3]), ("features", [2, 3, 1]),
      ("visual", [3, 1, 2])] : List (String × List EntityId)), f.2.Nodup := by
    decide
  obtain ⟨s, hs⟩ := ((main _ _ 60 hnd).2.2 1).mp
    ⟨("location", [1, 2, 3]), by decide, by decide⟩
  refine ⟨s, hs, ?_⟩
  have hval : s = fusedScoreSpec
      [("location", [1, 2, 3]), ("features", [2, 3, 1]), ("visual", [3, 1, 2])]
      [("location", 0.4), ("features", 0.4), ("visual", 0.2)] 60 1 :=
    (main _ _ 60 hnd).1 (1, s) hs
  rw [hval]
  simp +decide [fusedScoreSpec, rankContribution, weightsGet, List.indexOf,
    List.findIdx, List.findIdx.go]
  norm_num

/-- Witness for C1 at the spec's concrete scenario: the hypothesis (per-facet
lists are duplicate-free) holds there and the sortedness conclusion follows
by applying the theorem. -/
theorem claim_C1_witness :
    (∀ f ∈ ([("location", [1, 2, 3]), ("features", [2, 3, 1]),
        ("visual", [3, 1, 2])] : List (String × List EntityId)), f.2.Nodup)
    ∧ (weighted_rrf_merge
        [("location", [1, 2, 3]), ("features", [2, 3, 1]), ("visual", [3, 1, 2])]
        [("location", 0.4), ("features", 0.4), ("visual", 0.2)] 60).Pairwise
          (fun p q => q.2 ≤ p.2) :=
  ⟨by decide,
    (claim_C1_weighted_rrf_formula.1 _ _ 60 (by decide)).2.1⟩

/-- C4 counterexample: `_weighted_rrf_merge` performs no weight validation —
with the profile `{location: -1}` it does not fail but returns a (nonempty)
fused ranking with a negative score. -/
theorem claim_C4_counterexample :
    weighted_rrf_merge [("location", [5])] [("location", (-1 : ℚ))] 60
      = [(5, -(1 / 61))]
    ∧ weighted_rrf_merge [("location", [5])] [("location", (-1 : ℚ))] 60 ≠ [] := by
  have h : weighted_rrf_merge [("location", [5])] [("location", (-1 : ℚ))] 60
      = [(5, -(1 / 61))] := by
    norm_num [weighted_rrf_merge, scoresOf, addFacet, updateScore, weightsGet,
      List.enum, List.enumFrom, List.foldl, sortDesc, insertDesc]
  exact ⟨h, by rw [h]; simp⟩

/-- C4 amended: fusion does not reject negative weights; even when some
profile weight is negative, `_weighted_rrf_merge` returns the fused ranking
whose scores follow the same weighted RRF formula (with negative
contributions), instead of failing with an `InvalidWeight` error. -/
theorem claim_C4_no_weight_validation :
    ∀ (sr : List (String × List EntityId)) (w : List (String × ℚ)) (k : Nat),
    (∀ f ∈ sr, f.2.Nodup) →
    (∃ f ∈ w, f.2 < 0) →
    ∀ p ∈ weighted_rrf_merge sr w k, p.2 = fusedScoreSpec sr w k p.1 := by
  intro sr w k hnd _ p hp
  exact score_eq_fusedScoreSpec_of_mem_merge sr w k p hp hnd

/-- Witness for the amended C4 at a concrete negative-weight profile. -/
theorem claim_C4_witness :
    (∀ f ∈ ([("location", [1, 2])] : List (String × List EntityId)), f.2.Nodup)
    ∧ (∃ f ∈ ([("location", (-1 : ℚ))] : List (String × ℚ)), f.2 < 0)
    ∧ ∀ p ∈ weighted_rrf_merge [("location", [1, 2])] [("location", (-1 : ℚ))] 60,
        p.2 = fusedScoreSpec [("location", [1, 2])] [("location", (-1 : ℚ))] 60 p.1 :=
  ⟨by decide, by decide,
    claim_C4_no_weight_validation _ _ 60 (by decide) (by decide)⟩

/-- C5 counterexample: with the weight profile `{location: 0}`, fusing
`{location: [7]}` yields `[(7, 0)]`, while removing the zero-weighted facet's
list entirely yields `[]` — the fused outputs are not identical. -/
theorem claim_C5_counterexample :
    weighted_rrf_merge [("location", [7])] [("location", (0 : ℚ))] 60 = [(7, 0)]
    ∧ weighted_rrf_merge [] [("location", (0 : ℚ))] 60 = []
    ∧ weighted_rrf_merge [("location", [7])] [("location", (0 : ℚ))] 60
        ≠ weighted_rrf_merge [] [("location", (0 : ℚ))] 60 := by
  have h1 : weighted_rrf_merge [("location", [7])] [("location", (0 : ℚ))] 60
      = [(7, 0)] := by
    norm_num [weighted_rrf_merge, scoresOf, addFacet, updateScore, weightsGet,
      List.enum, List.enumFrom, List.foldl, sortDesc, insertDesc]
  have h2 : weighted_rrf_merge [] [("location", (0 : ℚ))] 60 = [] := rfl
  exact ⟨h1, h2, by rw [h1, h2]; simp⟩

/-- C5 amended: a zero-weighted facet contributes zero to every id's
accumulated score, so removing its ranked list leaves the score stored for
every id unchanged; the output sequences themselves can still differ, because
an id appearing only in the zero-weighted facet is listed with score 0 (see
the counterexample). -/
theorem claim_C5_zero_weight_scores :
    ∀ (xs ys : List (String × List EntityId)) (f : String × List EntityId)
      (w : List (String × ℚ)) (k : Nat),
    (∀ g ∈ xs ++ f :: ys, g.2.Nodup) →
    weightsGet w f.1 = 0 →
    ∀ id, lookupD (scoresOf (xs ++ f :: ys) w k) id
        = lookupD (scoresOf (xs ++ ys) w k) id := by
  intro xs ys f w k hnd hw id
  have hnd' : ∀ g ∈ xs ++ ys, g.2.Nodup := by
    intro g hg
    rcases List.mem_append.mp hg with h | h
    · exact hnd g (List.mem_append.mpr (Or.inl h))
    · exact hnd g (List.mem_append.mpr (Or.inr (List.mem_cons_of_mem f h)))
  rw [lookupD_scoresOf _ _ _ _ hnd, lookupD_scoresOf _ _ _ _ hnd']
  simp only [fusedScoreSpec, List.map_append, List.sum_append, List.map_cons,
    List.sum_cons, hw, zero_mul, zero_add]

/-- Witness for the amended C5: removing the zero-weighted `visual` facet
leaves the score stored for id 3 unchanged. -/
theorem claim_C5_witness :
    (∀ g ∈ ([("features", [1, 2]), ("visual", [3])] :
        List (String × List EntityId)), g.2.Nodup)
    ∧ weightsGet [("features", (1 : ℚ)), ("visual", 0)] "visual" = 0
    ∧ lookupD (scoresOf [("features", [1, 2]), ("visual", [3])]
          [("features", (1 : ℚ)), ("visual", 0)] 60) 3
        = lookupD (scoresOf [("features", [1, 2])]
          [("features", (1 : ℚ)), ("visual", 0)] 60) 3 :=
  ⟨by decide, rfl,
    claim_C5_zero_weight_scores [("features", [1, 2])] [] ("visual", [3])
      [("features", (1 : ℚ)), ("visual", 0)] 60 (by decide) rfl 3⟩

/-- C6. Fusion is deterministic (a pure function of its input), and among ids
with equal fused scores the output order is the insertion order of first
appearance: the sort is stable. -/
theorem claim_C6_deterministic_stable :
    ∀ (sr : List (String × List EntityId)) (w : List (String × ℚ)) (k : Nat),
    weighted_rrf_merge sr w k = weighted_rrf_merge sr w k
    ∧ (weighted_rrf_merge sr w k).Pairwise
        (fun p q => q.2 < p.2 ∨ (q.2 = p.2
          ∧ (firstAppearanceOrder sr).indexOf p.1
              < (firstAppearanceOrder sr).indexOf q.1)) := by
  intro sr w k
  refine ⟨rfl, ?_⟩
  have hst := (sortDesc_sorted_and_stable (scoresOf sr w k)).2
  refine hst.imp ?_
  intro p q hpq
  rcases hpq with h | ⟨he, hsub⟩
  · exact Or.inl h
  · refine Or.inr ⟨he, ?_⟩
    have hmap : [p.1, q.1].Sublist (keysOf (scoresOf sr w k)) := by
      have h0 := hsub.map Prod.fst
      simpa [keysOf] using h0
    rw [keysOf_scoresOf] at hmap
    exact indexOf_lt_of_pair_sublist _ _ _ hmap (nodup_firstAppearanceOrder sr)

theorem list_map_sum_eq_of_unique (l : List (String × List EntityId))
    (f : String × List EntityId → ℚ) (x : String × List EntityId)
    (hnd : l.Nodup) (hx : x ∈ l) (hz : ∀ y ∈ l, y ≠ x → f y = 0) :
    (l.map f).sum = f x := by
  induction l with
  | nil => cases hx
  | cons p rest ih =>
    rw [List.nodup_cons] at hnd
    rw [List.map_cons, List.sum_cons]
    by_cases hpx : p = x
    · subst hpx
      have hrest : (rest.map f).sum = 0 := by
        refine List.sum_eq_zero ?_
        intro y hy
        obtain ⟨z, hz', rfl⟩ := List.mem_map.mp hy
        exact hz z (List.mem_cons_of_mem p hz') (fun heq => hnd.1 (heq ▸ hz'))
      rw [hrest, add_zero]
    · have hxr : x ∈ rest := by
        rcases List.mem_cons.mp hx with he | hxr
        · exact absurd he.symm hpx
        · exact hxr
      rw [hz p (List.mem_cons_self p rest) hpx, zero_add]
      exact ih hnd.2 hxr (fun y hy => hz y (List.mem_cons_of_mem p hy))

theorem rankContribution_nonneg (k : Nat) (ids : List EntityId)
    (id : EntityId) : 0 ≤ rankContribution k ids id := by
  rw [rankContribution]
  split
  · positivity
  · exact le_refl 0

theorem rankContribution_of_head (k : Nat) (ids : List EntityId)
    (A : EntityId) (hhead : ids.head? = some A) :
    rankContribution k ids A = 1 / ((k : ℚ) + 1) := by
  cases ids with
  | nil => simp at hhead
  | cons a tl =>
    have ha : a = A := by simpa using hhead
    subst ha
    rw [rankContribution, if_pos (List.mem_cons_self a tl),
      List.indexOf_cons_self]
    norm_num

theorem indexOf_pos_of_head_ne (l : List EntityId) (A B : EntityId)
    (hhead : l.head? = some A) (hne : B ≠ A) (hB : B ∈ l) :
    1 ≤ l.indexOf B := by
  cases l with
  | nil => cases hB
  | cons a tl =>
    have ha : a = A := by simpa using hhead
    subst ha
    rw [List.indexOf_cons_ne tl (Ne.symm hne)]
    exact Nat.succ_le_succ (Nat.zero_le _)

theorem mem_of_head (l : List EntityId) (A : EntityId)
    (hhead : l.head? = some A) : A ∈ l := by
  cases l with
  | nil => simp at hhead
  | cons a tl =>
    have ha : a = A := by simpa using hhead
    exact ha ▸ List.mem_cons_self a tl

theorem fusedScoreSpec_ge_of_head (sr : List (String × List EntityId))
    (w : List (String × ℚ)) (k : Nat) (A : EntityId)
    (g : String × List EntityId) (hg : g ∈ sr)
    (hA : ∀ f ∈ sr, f.2.head? = some A)
    (hw : allWeightsPositive sr w) :
    weightsGet w g.1 * (1 / ((k : ℚ) + 1)) ≤ fusedScoreSpec sr w k A := by
  rw [fusedScoreSpec]
  refine List.single_le_sum ?_ _ ?_
  · intro x hx
    obtain ⟨f, hf, rfl⟩ := List.mem_map.mp hx
    exact mul_nonneg (le_of_lt (hw f hf)) (rankContribution_nonneg k f.2 A)
  · refine List.mem_map.mpr ⟨g, hg, ?_⟩
    rw [rankContribution_of_head k g.2 A (hA g hg)]

theorem fusedScoreSpec_of_exactly_one (sr : List (String × List EntityId))
    (w : List (String × ℚ)) (k : Nat) (B : EntityId)
    (g : String × List EntityId) (hsrnd : sr.Nodup)
    (hg : g ∈ sr) (hBg : B ∈ g.2)
    (honly : ∀ f ∈ sr, B ∈ f.2 → f = g) :
    fusedScoreSpec sr w k B
      = weightsGet w g.1 * (1 / ((k : ℚ) + (g.2.indexOf B : ℚ) + 1)) := by
  rw [fusedScoreSpec,
    list_map_sum_eq_of_unique sr _ g hsrnd hg (fun f hf hne => by
      have hnB : B ∉ f.2 := fun hB => hne (honly f hf hB)
      rw [rankContribution, if_neg hnB, mul_zero]),
    rankContribution, if_pos hBg]

/-- C7 counterexample to the claim as stated: with the single facet
`{location: [0]}` and the all-positive profile `{location: 1}`, the id 0 is
at rank 0 in every facet's list and also at rank 0 in exactly one facet and
in no other facet's list, yet its fused score is not strictly higher than the
fused score of such an id (they are the same id, hence the same score) — the
claim omits the requirement that the two ids be distinct. -/
theorem claim_C7_counterexample :
    atRankZeroEverywhere [("location", [0])] 0
    ∧ atRankZeroInExactlyOne [("location", [0])] 0
    ∧ allWeightsPositive [("location", [0])] [("location", (1 : ℚ))]
    ∧ ¬ (lookupD (weighted_rrf_merge [("location", [0])]
            [("location", (1 : ℚ))] 60) 0
          > lookupD (weighted_rrf_merge [("location", [0])]
            [("location", (1 : ℚ))] 60) 0) :=
  ⟨by decide, by decide, by decide, lt_irrefl _⟩

/-- C7 amended: for every weight profile with all facet weights strictly
positive, an id `A` at rank 0 in every facet's ranked list receives a
strictly higher fused score than any other id `B ≠ A` that appears in exactly
one facet's list (such an id necessarily sits at rank ≥ 1 there, since rank 0
is taken by `A`), and `A` is placed strictly earlier in the fused output. -/
theorem claim_C7_rank_zero_dominates :
    ∀ (sr : List (String × List EntityId)) (w : List (String × ℚ)) (k : Nat)
      (A B : EntityId),
    (∀ f ∈ sr, f.2.Nodup) →
    (sr.map Prod.fst).Nodup →
    atRankZeroEverywhere sr A →
    B ≠ A →
    inExactlyOneFacet sr B →
    allWeightsPositive sr w →
    lookupD (weighted_rrf_merge sr w k) B
        < lookupD (weighted_rrf_merge sr w k) A
    ∧ (keysOf (weighted_rrf_merge sr w k)).indexOf A
        < (keysOf (weighted_rrf_merge sr w k)).indexOf B := by
  intro sr w k A B hnd hkeys hA hBA hB hw
  obtain ⟨g, hg, hBg, honly⟩ := hB
  have hsrnd : sr.Nodup := List.Nodup.of_map Prod.fst hkeys
  have hheadg : g.2.head? = some A := hA.2 g hg
  have hwg : 0 < weightsGet w g.1 := hw g hg
  have hrank : 1 ≤ g.2.indexOf B :=
    indexOf_pos_of_head_ne g.2 A B hheadg hBA hBg
  have hscoreB : fusedScoreSpec sr w k B
      = weightsGet w g.1 * (1 / ((k : ℚ) + (g.2.indexOf B : ℚ) + 1)) :=
    fusedScoreSpec_of_exactly_one sr w k B g hsrnd hg hBg honly
  have hscoreA : weightsGet w g.1 * (1 / ((k : ℚ) + 1))
      ≤ fusedScoreSpec sr w k A :=
    fusedScoreSpec_ge_of_head sr w k A g hg hA.2 hw
  have hlt : fusedScoreSpec sr w k B < fusedScoreSpec sr w k A := by
    refine lt_of_lt_of_le ?_ hscoreA
    rw [hscoreB]
    refine mul_lt_mul_of_pos_left ?_ hwg
    have h1 : (0 : ℚ) < (k : ℚ) + 1 := by positivity
    have h2 : (k : ℚ) + 1 < (k : ℚ) + (g.2.indexOf B : ℚ) + 1 := by
      have : (1 : ℚ) ≤ (g.2.indexOf B : ℚ) := by exact_mod_cast hrank
      linarith
    exact one_div_lt_one_div_of_lt h1 h2
  have hlmB : lookupD (weighted_rrf_merge sr w k) B = fusedScoreSpec sr w k B :=
    lookupD_merge sr w k B hnd
  have hlmA : lookupD (weighted_rrf_merge sr w k) A = fusedScoreSpec sr w k A :=
    lookupD_merge sr w k A hnd
  have hltl : lookupD (weighted_rrf_merge sr w k) B
      < lookupD (weighted_rrf_merge sr w k) A := by
    rw [hlmB, hlmA]; exact hlt
  refine ⟨hltl, ?_⟩
  refine indexOf_keys_lt_of_score_lt _ (keysOf_merge_nodup sr w k)
    (merge_sorted sr w k) A B ?_ ?_ hltl
  · exact (mem_keysOf_merge sr w k A).mpr
      ⟨g, hg, mem_of_head g.2 A hheadg⟩
  · exact (mem_keysOf_merge sr w k B).mpr ⟨g, hg, hBg⟩

/-- Witness for the amended C7: facets `{location: [1, 2], features: [1, 3]}`,
profile `{location: 1, features: 1}`, `A = 1` at rank 0 everywhere, `B = 2`
only in the `location` facet. -/
theorem claim_C7_witness :
    ((∀ f ∈ ([("location", [1, 2]), ("features", [1, 3])] :
        List (String × List EntityId)), f.2.Nodup)
      ∧ (([("location", [1, 2]), ("features", [1, 3])] :
          List (String × List EntityId)).map Prod.fst).Nodup
      ∧ atRankZeroEverywhere [("location", [1, 2]), ("features", [1, 3])] 1
      ∧ (2 : EntityId) ≠ 1
      ∧ inExactlyOneFacet [("location", [1, 2]), ("features", [1, 3])] 2
      ∧ allWeightsPositive [("location", [1, 2]), ("features", [1, 3])]
          [("location", (1 : ℚ)), ("features", 1)])
    ∧ lookupD (weighted_rrf_merge [("location", [1, 2]), ("features", [1, 3])]
          [("location", (1 : ℚ)), ("features", 1)] 60) 2
        < lookupD (weighted_rrf_merge [("location", [1, 2]), ("features", [1, 3])]
          [("location", (1 : ℚ)), ("features", 1)] 60) 1 :=
  ⟨⟨by decide, by decide, by decide, by decide, by decide, by decide⟩,
    (claim_C7_rank_zero_dominates _ _ 60 1 2 (by decide) (by decide)
      (by decide) (by decide) (by decide) (by decide)).1⟩

theorem PSearcher_updateScore_eq (s : List (EntityId × ℚ)) (id : EntityId)
    (inc : ℚ) : PSearcher.updateScore s id inc = updateScore s id inc := by
  induction s with
  | nil => rfl
  | cons p rest ih =>
    obtain ⟨i, v⟩ := p
    by_cases hi : i = id <;>
      simp [PSearcher.updateScore, updateScore, hi, ih]

theorem PSearcher_addFacet_eq (s : List (EntityId × ℚ)) (w : ℚ) (k : Nat)
    (ids : List EntityId) : PSearcher.addFacet s w k ids = addFacet s w k ids := by
  rw [PSearcher.addFacet, addFacet]
  congr 1
  funext sc p
  exact PSearcher_updateScore_eq sc p.2 _

theorem PSearcher_scoresOf_eq (sr : List (String × List EntityId))
    (w : List (String × ℚ)) (k : Nat) :
    PSearcher.scoresOf sr w k = scoresOf sr w k := by
  rw [PSearcher.scoresOf, scoresOf]
  congr 1
  funext sc f
  exact PSearcher_addFacet_eq sc _ k f.2

theorem PSearcher_insertDesc_eq (p : EntityId × ℚ) (l : List (EntityId × ℚ)) :
    PSearcher.insertDesc p l = insertDesc p l := by
  induction l with
  | nil => rfl
  | cons q rest ih =>
    by_cases h : q.2 ≤ p.2 <;>
      simp [PSearcher.insertDesc, insertDesc, h, ih]

theorem PSearcher_sortDesc_eq (l : List (EntityId × ℚ)) :
    PSearcher.sortDesc l = sortDesc l := by
  induction l with
  | nil => rfl
  | cons p rest ih =>
    rw [PSearcher.sortDesc, sortDesc, ih, PSearcher_insertDesc_eq]

/-- C3 counterexample: on a record carrying only the searcher-style fields
(`list_price`, `bedrooms_total`, `lp_calculated_bath`, no `price_range`),
`apply_filters` from `property_match.py` excludes it (it requires
`price_range`) while `apply_filters` from `property_searcher.py` keeps it
(it falls back to `list_price`) — the two filter implementations are not
behaviorally equivalent on a common input. -/
theorem claim_C3_counterexample :
    apply_filters [demoRecord] (some demoFilters) = []
    ∧ PSearcher.apply_filters [demoRecord] (some demoFilters) = [demoRecord] := by
  constructor <;> decide

/-- C3 amended: the two `_weighted_rrf_merge` implementations are behaviorally
equivalent — they return the same fused ranking on every input — but the two
`apply_filters` implementations are not: they read different record fields
(`bedrooms` vs `bedrooms_total`, `bathrooms` vs `lp_calculated_bath`,
`price_range` only vs a `list_price` fallback, amenity-list membership vs
substring match on `lp_listing_description`) and disagree on a record that
carries only searcher-style fields. -/
theorem claim_C3_merge_equal_filters_differ :
    (∀ (sr : List (String × List EntityId)) (w : List (String × ℚ)) (k : Nat),
      PSearcher.weighted_rrf_merge sr w k = weighted_rrf_merge sr w k)
    ∧ apply_filters [demoRecord] (some demoFilters)
        ≠ PSearcher.apply_filters [demoRecord] (some demoFilters) := by
  constructor
  · intro sr w k
    rw [PSearcher.weighted_rrf_merge, weighted_rrf_merge,
      PSearcher_scoresOf_eq, PSearcher_sortDesc_eq]
  · decide

/-- C8. Filtering is idempotent: applying `apply_filters` (either
implementation) to its own output with the same spec returns that output
unchanged. -/
theorem claim_C8_filter_idempotent :
    ∀ (properties : List Record) (filters : Option PropertyFilters),
    apply_filters (apply_filters properties filters) filters
      = apply_filters properties filters
    ∧ PSearcher.apply_filters (PSearcher.apply_filters properties filters)
        filters
      = PSearcher.apply_filters properties filters := by
  intro props filters
  cases filters with
  | none => exact ⟨rfl, rfl⟩
  | some f =>
    constructor <;>
      simp [apply_filters, PSearcher.apply_filters, List.filter_filter]

/-- C9. `apply_filters` never constructs or modifies a record: its output is
an order-preserving subsequence of its input, and every surviving record is
(an unchanged element) of the input. -/
theorem claim_C9_filter_subsequence :
    ∀ (properties : List Record) (filters : Option PropertyFilters),
    (apply_filters properties filters).Sublist properties
    ∧ ∀ r ∈ apply_filters properties filters, r ∈ properties := by
  intro props filters
  have hsub : (apply_filters props filters).Sublist props := by
    cases filters with
    | none => exact List.Sublist.refl props
    | some f => exact List.filter_sublist props
  exact ⟨hsub, fun r hr => hsub.mem hr⟩

/-- C2 counterexample: with a client whose `visual_vectors` collection is
missing the query entity, the internal search body raises (before any
fusion), but `search_similar_properties` returns the empty list normally —
no `QueryEntityNotFound` failure is surfaced to the caller. -/
theorem claim_C2_counterexample :
    searchCore demoClient 1 SearchMode.balanced none 10
      = Except.error "Property ID not found in visual_vectors"
    ∧ search_similar_properties demoClient 1 SearchMode.balanced none 10
      = [] := by
  constructor <;> rfl

theorem retrieveRanked_error_of_missing (c : Client) (key : String)
    (property_id : EntityId) (top_k : Nat)
    (h : vectorMissing c (key ++ "_vectors") property_id) :
    ∃ e, retrieveRanked c key property_id top_k = Except.error e := by
  rw [retrieveRanked]
  cases hr : c.retrieve (key ++ "_vectors") [property_id] with
  | error e => exact ⟨e, rfl⟩
  | ok pts =>
    rcases h pts hr with rfl | ⟨p, rest, rfl, hpv⟩
    · exact ⟨_, rfl⟩
    · refine ⟨"Property ID not found in " ++ key ++ "_vectors", ?_⟩
      simp [hpv]

/-- C2 amended: whenever the query entity's stored vector is missing in at
least one facet — `location`, `features` or `visual` (no point, or a falsy
vector) — the facet loop raises before any fusion is attempted: the search
body is an error for every behaviour of the remaining collaborator calls.
But the top-level handler catches the exception and the caller receives the
empty list rather than a surfaced `QueryEntityNotFound` failure. -/
theorem claim_C2_missing_facet_vector :
    ∀ (c : Client) (property_id : EntityId) (mode : SearchMode)
      (filters : Option PropertyFilters) (top_k : Nat),
    (∃ key ∈ ["location", "features", "visual"],
      vectorMissing c (key ++ "_vectors") property_id) →
    (∃ e, searchCore c property_id mode filters top_k = Except.error e)
    ∧ search_similar_properties c property_id mode filters top_k = [] := by
  intro c pid mode filters tk hmiss
  have hcore : ∃ e, searchCore c pid mode filters tk = Except.error e := by
    obtain ⟨key, hkeymem, hm⟩ := hmiss
    rw [searchCore]
    rcases List.mem_cons.mp hkeymem with rfl | hkeymem
    · obtain ⟨e, he⟩ := retrieveRanked_error_of_missing c "location" pid tk hm
      rw [he]
      exact ⟨e, rfl⟩
    rcases List.mem_cons.mp hkeymem with rfl | hkeymem
    · cases hl : retrieveRanked c "location" pid tk with
      | error e1 => exact ⟨e1, rfl⟩
      | ok loc =>
        obtain ⟨e, he⟩ := retrieveRanked_error_of_missing c "features" pid tk hm
        rw [he]
        exact ⟨e, rfl⟩
    rcases List.mem_cons.mp hkeymem with rfl | hkeymem
    · cases hl : retrieveRanked c "location" pid tk with
      | error e1 => exact ⟨e1, rfl⟩
      | ok loc =>
        cases hf : retrieveRanked c "features" pid tk with
        | error e2 => exact ⟨e2, rfl⟩
        | ok feat =>
          obtain ⟨e, he⟩ := retrieveRanked_error_of_missing c "visual" pid tk hm
          rw [he]
          exact ⟨e, rfl⟩
    · cases hkeymem
  obtain ⟨e, he⟩ := hcore
  refine ⟨⟨e, he⟩, ?_⟩
  rw [search_similar_properties, he]

/-- Witness for the amended C2 at the demonstration client: its
`visual_vectors` lookups return no point — so the vector is missing in at
least one facet — and the search returns `[]`. -/
theorem claim_C2_witness :
    (∃ key ∈ ["location", "features", "visual"],
      vectorMissing demoClient (key ++ "_vectors") 1)
    ∧ search_similar_properties demoClient 1 SearchMode.balanced none 10
      = [] :=
  ⟨⟨"visual", by decide, fun pts h => Or.inl (by
      have h0 : (Except.ok ([] : List Point) : Except String (List Point))
          = Except.ok pts := by rw [← h]; rfl
      cases h0
      rfl)⟩,
    (claim_C2_missing_facet_vector demoClient 1 SearchMode.balanced none 10
      ⟨"visual", by decide, fun pts h => Or.inl (by
        have h0 : (Except.ok ([] : List Point) : Except String (List Point))
            = Except.ok pts := by rw [← h]; rfl
        cases h0
        rfl)⟩).2⟩

/-- C10. `search_similar_properties` never lets an exception reach the
caller: either the body succeeds and its result is returned, or the body
raises (unrecognized data, missing facet vector, collaborator failure during
retrieval, search or hydration) and the caller receives the empty list. -/
theorem claim_C10_no_exception_to_caller :
    ∀ (c : Client) (property_id : EntityId) (mode : SearchMode)
      (filters : Option PropertyFilters) (top_k : Nat),
    (∃ r, searchCore c property_id mode filters top_k = Except.ok r
        ∧ search_similar_properties c property_id mode filters top_k = r)
    ∨ (∃ e, searchCore c property_id mode filters top_k = Except.error e
        ∧ search_similar_properties c property_id mode filters top_k = []) := by
  intro c pid mode filters tk
  cases h : searchCore c pid mode filters tk with
  | ok r =>
    refine Or.inl ⟨r, rfl, ?_⟩
    rw [search_similar_properties, h]
  | error e =>
    refine Or.inr ⟨e, rfl, ?_⟩
    rw [search_similar_properties, h]

end Domino

namespace Domino

-- sanity checks on small inputs (scenario from the spec, ids A=1, B=2, C=3)
example :
    scoresOf [("location", [1, 2, 3])] [("location", (1 : ℚ))] 60
      = [(1, 1 / 61), (2, 1 / 62), (3, 1 / 63)] := by
  norm_num [scoresOf, addFacet, updateScore, weightsGet, List.enum,
    List.enumFrom, List.foldl]

example :
    weighted_rrf_merge [("location", [1, 2])] [("location", (-1 : ℚ))] 60
      = [(2, -(1 / 62)), (1, -(1 / 61))] := by
  norm_num [weighted_rrf_merge, scoresOf, addFacet, updateScore, weightsGet,
    List.enum, List.enumFrom, List.foldl, sortDesc, insertDesc]

end Domino
